import Mathlib

/-!
Verification of the budget-plan allocation engine (`utils/data_manager.py`).

The engine state (`DataManager`) holds division reference data, headquarters
totals, allocation ratios and optional cost transfers.  Python dicts are
modelled as association lists (preserving insertion order); real arithmetic is
modelled exactly over `ℚ`; Python's `ZeroDivisionError` / `KeyError` become an
explicit error type, so fallible computations live in `Except PyError`.
-/

/-- Errors the Python engine can raise: `ZeroDivisionError` and `KeyError`. -/
inductive PyError where
  | zeroDivision : PyError
  | keyError : PyError
deriving DecidableEq

/-- One division's immutable reference data (`self.departments` values). -/
structure Department where
  margin_rate : ℚ
  fixed_cost : ℚ
  variable_cost : ℚ
deriving DecidableEq

/-- A division's allocation share (`{"fixed": ..., "variable": ...}`). -/
structure RatioPair where
  fixed : ℚ
  var : ℚ
deriving DecidableEq

/-- Python `dict[key]` lookup on an insertion-ordered association list. -/
def dictGet {α : Type} (k : String) : List (String × α) → Option α
  | [] => none
  | (n, v) :: rest => if n = k then some v else dictGet k rest

/-- The `DataManager` state: division data, headquarters totals, allocation
ratios and inter-division cost transfers. -/
structure DataManager where
  departments : List (String × Department)
  headquarters_fixed_cost : ℚ
  headquarters_variable_cost : ℚ
  allocation_ratios : List (String × RatioPair)
  cost_transfers : List (String × ℚ)
deriving DecidableEq

/-- The state built by `DataManager.__init__`: five divisions, headquarters
totals, equal 0.2 allocation ratios, empty cost transfers. -/
def initialDataManager : DataManager where
  departments :=
    [ ("キャリア", ⟨0.6025, 25572000, 10430800⟩)
    , ("インサイド", ⟨0.6483, 30516360, 7014000⟩)
    , ("フィールド", ⟨0.4512, 4830000, 374600⟩)
    , ("SP", ⟨0.5421, 15112000, 2985600⟩)
    , ("飲食", ⟨0.5478, 9862800, 1619400⟩) ]
  headquarters_fixed_cost := 53013900
  headquarters_variable_cost := 11649400
  allocation_ratios :=
    [ ("キャリア", ⟨0.2, 0.2⟩)
    , ("インサイド", ⟨0.2, 0.2⟩)
    , ("フィールド", ⟨0.2, 0.2⟩)
    , ("SP", ⟨0.2, 0.2⟩)
    , ("飲食", ⟨0.2, 0.2⟩) ]
  cost_transfers := []

/-- `DataManager.calculate_implied_sales`: look up the division, then compute
`variable_cost / (1 - margin_rate)`; a zero denominator raises
`ZeroDivisionError`, an unknown name raises `KeyError`. -/
def calculate_implied_sales (dm : DataManager) (dept_name : String) :
    Except PyError ℚ :=
  match dictGet dept_name dm.departments with
  | none => .error .keyError
  | some dept_data =>
    if (1 : ℚ) - dept_data.margin_rate = 0 then .error .zeroDivision
    else .ok (dept_data.variable_cost / (1 - dept_data.margin_rate))

/-- The per-division record emitted by `calculate_allocated_costs`. -/
structure AllocatedCost where
  original_margin_rate : ℚ
  margin_rate : ℚ
  original_implied_sales : ℚ
  implied_sales : ℚ
  sales_increase : ℚ
  fixed_cost : ℚ
  variable_cost : ℚ
  original_fixed : ℚ
  original_variable : ℚ
  hq_fixed_allocated : ℚ
  hq_variable_allocated : ℚ
  transfer_fixed : ℚ
  transfer_variable : ℚ
deriving DecidableEq

/-- The record the `calculate_allocated_costs` loop body builds for one
division, given its implied sales and ratio pair. -/
def mkAllocated (dm : DataManager) (dept_name : String)
    (dept_data : Department) (original_implied_sales : ℚ) (r : RatioPair) :
    AllocatedCost :=
  let hq_fixed_allocated := dm.headquarters_fixed_cost * r.fixed
  let hq_variable_allocated := dm.headquarters_variable_cost * r.var
  let transfer_fixed :=
    (dictGet (dept_name ++ "_fixed") dm.cost_transfers).getD 0
  let transfer_variable :=
    (dictGet (dept_name ++ "_variable") dm.cost_transfers).getD 0
  let allocated_sales := original_implied_sales + hq_variable_allocated
  let total_fixed := dept_data.fixed_cost + hq_fixed_allocated + transfer_fixed
  let total_variable :=
    dept_data.variable_cost + hq_variable_allocated + transfer_variable
  { original_margin_rate := dept_data.margin_rate
    margin_rate := (allocated_sales - total_variable) / allocated_sales
    original_implied_sales := original_implied_sales
    implied_sales := allocated_sales
    sales_increase := hq_variable_allocated
    fixed_cost := total_fixed
    variable_cost := total_variable
    original_fixed := dept_data.fixed_cost
    original_variable := dept_data.variable_cost
    hq_fixed_allocated := hq_fixed_allocated
    hq_variable_allocated := hq_variable_allocated
    transfer_fixed := transfer_fixed
    transfer_variable := transfer_variable }

/-- One iteration of the `calculate_allocated_costs` loop: implied sales may
raise, the ratio lookup may raise `KeyError`, and recomputing the margin rate
raises `ZeroDivisionError` when the allocated sales are zero. -/
def allocOne (dm : DataManager) (dept_name : String) (dept_data : Department) :
    Except PyError AllocatedCost :=
  match calculate_implied_sales dm dept_name with
  | .error e => .error e
  | .ok original_implied_sales =>
    match dictGet dept_name dm.allocation_ratios with
    | none => .error .keyError
    | some r =>
      if original_implied_sales + dm.headquarters_variable_cost * r.var = 0
      then .error .zeroDivision
      else .ok (mkAllocated dm dept_name dept_data original_implied_sales r)

/-- The `calculate_allocated_costs` loop over a division list, in order. -/
def allocList (dm : DataManager) :
    List (String × Department) → Except PyError (List (String × AllocatedCost))
  | [] => .ok []
  | (n, d) :: rest =>
    match allocOne dm n d with
    | .error e => .error e
    | .ok c =>
      match allocList dm rest with
      | .error e => .error e
      | .ok cs => .ok ((n, c) :: cs)

/-- `DataManager.calculate_allocated_costs`: allocate over all divisions in
their defined iteration order. -/
def calculate_allocated_costs (dm : DataManager) :
    Except PyError (List (String × AllocatedCost)) :=
  allocList dm dm.departments

/-- `DataManager.calculate_break_even_point`: recompute allocations, look the
division up, then `fixed_cost / margin_rate` (zero divisor raises). -/
def calculate_break_even_point (dm : DataManager) (dept_name : String) :
    Except PyError ℚ :=
  match calculate_allocated_costs dm with
  | .error e => .error e
  | .ok allocated_costs =>
    match dictGet dept_name allocated_costs with
    | none => .error .keyError
    | some dept_data =>
      if dept_data.margin_rate = 0 then .error .zeroDivision
      else .ok (dept_data.fixed_cost / dept_data.margin_rate)

/-- `DataManager.update_allocation_ratios`: wholesale replacement of the
allocation ratio mapping; every other field is untouched. -/
def update_allocation_ratios (dm : DataManager)
    (new_ratios : List (String × RatioPair)) : DataManager :=
  { dm with allocation_ratios := new_ratios }

/-- The `"影響"` sub-record of `get_allocation_impact_analysis`. -/
structure ImpactEffect where
  fixed_increase : ℚ
  variable_increase : ℚ
  variable_increase_pct : ℚ
  sales_increase : ℚ
  sales_increase_pct : ℚ
  margin_rate_delta : ℚ
  margin_rate_delta_pct : ℚ
deriving DecidableEq

/-- One iteration of the `get_allocation_impact_analysis` loop.  The variable
and sales percentage increases are zero-guarded (`if ... > 0 ... else 0`); the
margin-rate change percentage divides by the original margin rate
unconditionally, so a zero original margin rate raises `ZeroDivisionError`. -/
def impactOne (dm : DataManager) (dept_name : String)
    (dept_data : Department) : Except PyError ImpactEffect :=
  match calculate_implied_sales dm dept_name with
  | .error e => .error e
  | .ok original_implied_sales =>
    match calculate_allocated_costs dm with
    | .error e => .error e
    | .ok allocated_costs =>
      match dictGet dept_name allocated_costs with
      | none => .error .keyError
      | some allocated =>
        if dept_data.margin_rate = 0 then .error .zeroDivision
        else .ok
          { fixed_increase := allocated.fixed_cost - dept_data.fixed_cost
            variable_increase :=
              allocated.variable_cost - dept_data.variable_cost
            variable_increase_pct :=
              if dept_data.variable_cost > 0 then
                (allocated.variable_cost - dept_data.variable_cost) /
                  dept_data.variable_cost * 100
              else 0
            sales_increase := allocated.sales_increase
            sales_increase_pct :=
              if original_implied_sales > 0 then
                allocated.sales_increase / original_implied_sales * 100
              else 0
            margin_rate_delta :=
              allocated.margin_rate - dept_data.margin_rate
            margin_rate_delta_pct :=
              (allocated.margin_rate - dept_data.margin_rate) /
                dept_data.margin_rate * 100 }

/-- The `get_allocation_impact_analysis` loop over a division list. -/
def impactList (dm : DataManager) :
    List (String × Department) → Except PyError (List (String × ImpactEffect))
  | [] => .ok []
  | (n, d) :: rest =>
    match impactOne dm n d with
    | .error e => .error e
    | .ok eff =>
      match impactList dm rest with
      | .error e => .error e
      | .ok effs => .ok ((n, eff) :: effs)

/-- `DataManager.get_allocation_impact_analysis` over all divisions. -/
def get_allocation_impact_analysis (dm : DataManager) :
    Except PyError (List (String × ImpactEffect)) :=
  impactList dm dm.departments

/-- Modelled from the spec: the increase pass of `autoAdjustRatios` (no
implementation exists under `src/`).  Walking the already-reversed division
list, each division absorbs `min(delta_remaining, 1.0 - current_ratio)`. -/
def adjustUpRev : List (String × ℚ) → ℚ → List (String × ℚ)
  | [], _ => []
  | (n, r) :: rest, rem =>
    let add := min rem (1 - r)
    (n, r + add) :: adjustUpRev rest (rem - add)

/-- Modelled from the spec: the decrease pass of `autoAdjustRatios` (no
implementation exists under `src/`).  Walking the already-reversed division
list, each division absorbs `min(|delta_remaining|, current_ratio)`. -/
def adjustDownRev : List (String × ℚ) → ℚ → List (String × ℚ)
  | [], _ => []
  | (n, r) :: rest, rem =>
    let sub := min rem r
    (n, r - sub) :: adjustDownRev rest (rem - sub)

/-- Modelled from the spec: `autoAdjustRatios(ratios, target)` — absent from
`src/`, described in §4.1 of the spec.  If the ratio sum is within ε = 0.001
of the target, return the ratios unchanged; otherwise distribute the
difference over the divisions in reverse of their defined order, clamping each
adjustment to keep the ratio within [0, 1]. -/
def autoAdjustRatios (ratios : List (String × ℚ)) (target : ℚ) :
    List (String × ℚ) :=
  let s := (ratios.map Prod.snd).sum
  if |s - target| < 1 / 1000 then ratios
  else if s < target then (adjustUpRev ratios.reverse (target - s)).reverse
  else (adjustDownRev ratios.reverse (s - target)).reverse

/-- States reachable from `__init__` through the public interface; the only
mutator is `update_allocation_ratios`. -/
inductive Reachable : DataManager → Prop
  | init : Reachable initialDataManager
  | update (dm : DataManager) (r : List (String × RatioPair)) :
      Reachable dm → Reachable (update_allocation_ratios dm r)

/-- A small engine state used to instantiate the general theorems: one
division with margin rate 1/2, matching the spec's end-to-end example. -/
def exampleDM : DataManager where
  departments := [("D1", ⟨1/2, 1000, 500⟩)]
  headquarters_fixed_cost := 200
  headquarters_variable_cost := 100
  allocation_ratios := [("D1", ⟨1/2, 1/2⟩)]
  cost_transfers := []

/-- The allocated-cost record `exampleDM` produces for division `D1`. -/
def exampleAlloc : AllocatedCost :=
  ⟨1/2, 10/21, 1000, 1050, 50, 1100, 550, 1000, 500, 100, 50, 0, 0⟩

/-- A state whose single division has margin rate 1 (degenerate input). -/
def marginOneDM : DataManager where
  departments := [("M1", ⟨1, 1000, 500⟩)]
  headquarters_fixed_cost := 200
  headquarters_variable_cost := 100
  allocation_ratios := [("M1", ⟨1/2, 1/2⟩)]
  cost_transfers := []

/-- A state whose single division has original margin rate 0. -/
def marginZeroDM : DataManager where
  departments := [("Z1", ⟨0, 1000, 500⟩)]
  headquarters_fixed_cost := 200
  headquarters_variable_cost := 100
  allocation_ratios := [("Z1", ⟨1/2, 1/2⟩)]
  cost_transfers := []

/-- A two-division state whose fixed and variable ratios each sum to 1. -/
def conservDM : DataManager where
  departments := [("D1", ⟨1/2, 1000, 500⟩), ("D2", ⟨1/2, 2000, 600⟩)]
  headquarters_fixed_cost := 200
  headquarters_variable_cost := 100
  allocation_ratios := [("D1", ⟨1/2, 1/2⟩), ("D2", ⟨1/2, 1/2⟩)]
  cost_transfers := []


/-- Sum of the headquarters fixed-cost allocations over an allocation result. -/
def hqFixedAllocSum (l : List (String × AllocatedCost)) : ℚ :=
  (l.map (fun p => p.2.hq_fixed_allocated)).sum

/-- Sum of the headquarters variable-cost allocations over an allocation
result. -/
def hqVarAllocSum (l : List (String × AllocatedCost)) : ℚ :=
  (l.map (fun p => p.2.hq_variable_allocated)).sum

/-- Sum, over the divisions in their defined order, of the fixed allocation
ratio each division looks up during `calculate_allocated_costs`. -/
def ratioFixedSum (dm : DataManager) : ℚ :=
  (dm.departments.map
    (fun p => (dictGet p.1 dm.allocation_ratios).elim 0 RatioPair.fixed)).sum

/-- Sum, over the divisions in their defined order, of the variable allocation
ratio each division looks up during `calculate_allocated_costs`. -/
def ratioVarSum (dm : DataManager) : ℚ :=
  (dm.departments.map
    (fun p => (dictGet p.1 dm.allocation_ratios).elim 0 RatioPair.var)).sum

/-- The allocated-cost record `conservDM` produces for division `D2`. -/
def conservAlloc2 : AllocatedCost :=
  ⟨1/2, 12/25, 1200, 1250, 50, 2100, 650, 2000, 600, 100, 50, 0, 0⟩


/-- The impact-analysis record `exampleDM` produces for division `D1`. -/
def exampleImpact : ImpactEffect :=
  ⟨100, 50, 10, 50, 5, -1/42, -100/21⟩

/-- The allocated-cost record `marginZeroDM` produces for division `Z1`. -/
def zeroAlloc : AllocatedCost :=
  ⟨0, 0, 500, 550, 50, 1100, 550, 1000, 500, 100, 50, 0, 0⟩

/-! ### Helper lemmas -/

theorem calculate_implied_sales_ok {dm : DataManager} {n : String} {d : Department}
    (hd : dictGet n dm.departments = some d) (hne : (1 : ℚ) - d.margin_rate ≠ 0) :
    calculate_implied_sales dm n = .ok (d.variable_cost / (1 - d.margin_rate)) := by
  simp [calculate_implied_sales, hd, hne]

theorem allocOne_ok_inv {dm : DataManager} {n : String} {d : Department}
    {c : AllocatedCost} (h : allocOne dm n d = .ok c) :
    ∃ S r, calculate_implied_sales dm n = .ok S ∧
      dictGet n dm.allocation_ratios = some r ∧
      S + dm.headquarters_variable_cost * r.var ≠ 0 ∧
      c = mkAllocated dm n d S r := by
  unfold allocOne at h
  rcases hS : calculate_implied_sales dm n with e | S <;> rw [hS] at h
  · simp at h
  rcases hr : dictGet n dm.allocation_ratios with _ | r <;> rw [hr] at h
  · simp at h
  by_cases hz : S + dm.headquarters_variable_cost * r.var = 0
  · simp [hz] at h
  · refine ⟨S, r, rfl, rfl, hz, ?_⟩
    simp [hz] at h
    exact h.symm

theorem allocList_keys {dm : DataManager} :
    ∀ {ds : List (String × Department)} {l : List (String × AllocatedCost)},
      allocList dm ds = .ok l → l.map Prod.fst = ds.map Prod.fst := by
  intro ds
  induction ds with
  | nil => intro l h; simp [allocList] at h; simp [← h]
  | cons q rest ih =>
    intro l h
    obtain ⟨n, d⟩ := q
    unfold allocList at h
    rcases hc : allocOne dm n d with e | c <;> rw [hc] at h
    · simp at h
    rcases hrest : allocList dm rest with e | cs <;> rw [hrest] at h
    · simp at h
    simp at h
    subst h
    simp [ih hrest]

theorem allocList_dictGet {dm : DataManager} :
    ∀ {ds : List (String × Department)} {l : List (String × AllocatedCost)}
      {n : String} {d : Department} {c : AllocatedCost},
      allocList dm ds = .ok l → dictGet n ds = some d → dictGet n l = some c →
      allocOne dm n d = .ok c := by
  intro ds
  induction ds with
  | nil => intro l n d c h hd hc; simp [dictGet] at hd
  | cons q rest ih =>
    intro l n d c h hd hc
    obtain ⟨m, d0⟩ := q
    unfold allocList at h
    rcases hc0 : allocOne dm m d0 with e | c0 <;> rw [hc0] at h
    · simp at h
    rcases hrest : allocList dm rest with e | cs <;> rw [hrest] at h
    · simp at h
    simp at h
    subst h
    by_cases hm : m = n
    · subst hm
      rw [dictGet, if_pos rfl] at hd
      rw [dictGet, if_pos rfl] at hc
      obtain rfl : d0 = d := by simpa using hd
      obtain rfl : c0 = c := by simpa using hc
      exact hc0
    · rw [dictGet, if_neg hm] at hd
      rw [dictGet, if_neg hm] at hc
      exact ih hrest hd hc

theorem allocList_mem_ok {dm : DataManager} :
    ∀ {ds : List (String × Department)} {l : List (String × AllocatedCost)}
      {n : String} {d : Department},
      allocList dm ds = .ok l → (n, d) ∈ ds → ∃ c, allocOne dm n d = .ok c := by
  intro ds
  induction ds with
  | nil => intro l n d h hm; simp at hm
  | cons q rest ih =>
    intro l n d h hm
    obtain ⟨m, d0⟩ := q
    unfold allocList at h
    rcases hc0 : allocOne dm m d0 with e | c0 <;> rw [hc0] at h
    · simp at h
    rcases hrest : allocList dm rest with e | cs <;> rw [hrest] at h
    · simp at h
    rcases List.mem_cons.mp hm with hq | hq
    · injection hq with h1 h2
      exact ⟨c0, by rw [h1, h2]; exact hc0⟩
    · exact ih hrest hq

theorem allocList_mem_src {dm : DataManager} :
    ∀ {ds : List (String × Department)} {l : List (String × AllocatedCost)}
      {q : String × AllocatedCost},
      allocList dm ds = .ok l → q ∈ l →
      ∃ d, (q.1, d) ∈ ds ∧ allocOne dm q.1 d = .ok q.2 := by
  intro ds
  induction ds with
  | nil => intro l q h hq; simp [allocList] at h; subst h; simp at hq
  | cons p rest ih =>
    intro l q h hq
    obtain ⟨m, d0⟩ := p
    unfold allocList at h
    rcases hc0 : allocOne dm m d0 with e | c0 <;> rw [hc0] at h
    · simp at h
    rcases hrest : allocList dm rest with e | cs <;> rw [hrest] at h
    · simp at h
    simp at h
    subst h
    rcases List.mem_cons.mp hq with hq' | hq'
    · subst hq'
      exact ⟨d0, by simp, hc0⟩
    · obtain ⟨d, hd1, hd2⟩ := ih hrest hq'
      exact ⟨d, List.mem_cons_of_mem _ hd1, hd2⟩

theorem dictGet_key_mem {α : Type} :
    ∀ {l : List (String × α)} {n : String},
      n ∈ l.map Prod.fst → ∃ c, dictGet n l = some c := by
  intro l
  induction l with
  | nil => intro n h; simp at h
  | cons q rest ih =>
    intro n h
    by_cases hm : q.1 = n
    · exact ⟨q.2, by rw [show q = (q.1, q.2) from rfl, dictGet, if_pos hm]⟩
    · rcases List.mem_map.mp h with ⟨p, hp, hpn⟩
      rcases List.mem_cons.mp hp with rfl | hp'
      · exact absurd hpn hm
      · obtain ⟨c, hc⟩ := ih (List.mem_map.mpr ⟨p, hp', hpn⟩)
        exact ⟨c, by rw [show q = (q.1, q.2) from rfl, dictGet, if_neg hm]; exact hc⟩

/-! ### Claim theorems -/

/-- C1: for every division whose margin rate lies strictly between 0 and 1 and
whose variable cost is nonnegative, `calculate_implied_sales` returns exactly
`variable_cost / (1 - margin_rate)`, and that value satisfies the round-trip
identity `variable_cost = implied_revenue * (1 - margin_rate)`. -/
theorem impliedRevenue_round_trip (dm : DataManager) (n : String)
    (d : Department) (hd : dictGet n dm.departments = some d)
    (h0 : 0 < d.margin_rate) (h1 : d.margin_rate < 1)
    (hv : 0 ≤ d.variable_cost) :
    calculate_implied_sales dm n = .ok (d.variable_cost / (1 - d.margin_rate)) ∧
    d.variable_cost = d.variable_cost / (1 - d.margin_rate) * (1 - d.margin_rate) := by
  have hne : (1 : ℚ) - d.margin_rate ≠ 0 := sub_ne_zero.mpr (ne_of_gt h1)
  exact ⟨calculate_implied_sales_ok hd hne, (div_mul_cancel₀ _ hne).symm⟩

/-- C1 witness: the round-trip identity instantiated on `exampleDM`. -/
theorem impliedRevenue_round_trip_witness :
    dictGet "D1" exampleDM.departments = some ⟨1/2, 1000, 500⟩ ∧
    (0 : ℚ) < 1/2 ∧ (1/2 : ℚ) < 1 ∧ (0 : ℚ) ≤ 500 ∧
    (calculate_implied_sales exampleDM "D1" = .ok ((500 : ℚ) / (1 - 1/2)) ∧
      (500 : ℚ) = 500 / (1 - 1/2) * (1 - 1/2)) :=
  ⟨by norm_num [dictGet, exampleDM], by norm_num, by norm_num, by norm_num,
    impliedRevenue_round_trip exampleDM "D1" ⟨1/2, 1000, 500⟩
      (by norm_num [dictGet, exampleDM]) (by norm_num) (by norm_num)
      (by norm_num)⟩

/-- C5: a division with margin rate 1 and positive variable cost makes
`calculate_implied_sales` raise `ZeroDivisionError`; no value (so in
particular no infinity or NaN) is returned. -/
theorem impliedRevenue_margin_one (dm : DataManager) (n : String)
    (d : Department) (hd : dictGet n dm.departments = some d)
    (hm : d.margin_rate = 1) (hv : 0 < d.variable_cost) :
    calculate_implied_sales dm n = .error .zeroDivision := by
  simp [calculate_implied_sales, hd, hm]

/-- C5 witness: the degenerate margin-rate-1 division of `marginOneDM`. -/
theorem impliedRevenue_margin_one_witness :
    dictGet "M1" marginOneDM.departments = some ⟨1, 1000, 500⟩ ∧
    (⟨1, 1000, 500⟩ : Department).margin_rate = 1 ∧
    (0 : ℚ) < 500 ∧
    calculate_implied_sales marginOneDM "M1" = .error .zeroDivision :=
  ⟨by norm_num [dictGet, marginOneDM], by norm_num, by norm_num,
    impliedRevenue_margin_one marginOneDM "M1" ⟨1, 1000, 500⟩
      (by norm_num [dictGet, marginOneDM]) (by norm_num) (by norm_num)⟩

/-- C4: for a division present in the allocation result,
`calculate_break_even_point` returns exactly `total_fixed / new_margin_rate`
for that division's allocated record, and raises `ZeroDivisionError` when the
recomputed margin rate is zero. -/
theorem breakEven_spec (dm : DataManager) (n : String)
    (l : List (String × AllocatedCost)) (c : AllocatedCost)
    (hal : calculate_allocated_costs dm = .ok l) (hc : dictGet n l = some c) :
    (c.margin_rate ≠ 0 →
      calculate_break_even_point dm n = .ok (c.fixed_cost / c.margin_rate)) ∧
    (c.margin_rate = 0 →
      calculate_break_even_point dm n = .error .zeroDivision) := by
  constructor <;> intro h0 <;>
    simp [calculate_break_even_point, hal, hc, h0]

/-- C4 witness: the break-even point of `exampleDM`, where the recomputed
margin rate is 10/21 and the break-even point is 1100 / (10/21) = 2310. -/
theorem breakEven_spec_witness :
    calculate_allocated_costs exampleDM = .ok [("D1", exampleAlloc)] ∧
    dictGet "D1" [("D1", exampleAlloc)] = some exampleAlloc ∧
    ((exampleAlloc.margin_rate ≠ 0 →
        calculate_break_even_point exampleDM "D1" =
          .ok (exampleAlloc.fixed_cost / exampleAlloc.margin_rate)) ∧
      (exampleAlloc.margin_rate = 0 →
        calculate_break_even_point exampleDM "D1" = .error .zeroDivision)) :=
  ⟨by norm_num [calculate_allocated_costs, allocList, allocOne,
      calculate_implied_sales, mkAllocated, dictGet, exampleDM, exampleAlloc],
    by norm_num [dictGet],
    breakEven_spec exampleDM "D1" [("D1", exampleAlloc)] exampleAlloc
      (by norm_num [calculate_allocated_costs, allocList, allocOne,
        calculate_implied_sales, mkAllocated, dictGet, exampleDM, exampleAlloc])
      (by norm_num [dictGet])⟩

theorem allocList_hq_sums {dm : DataManager} :
    ∀ {ds : List (String × Department)} {l : List (String × AllocatedCost)},
      allocList dm ds = .ok l →
      hqFixedAllocSum l = dm.headquarters_fixed_cost *
        (ds.map
          (fun p => (dictGet p.1 dm.allocation_ratios).elim 0 RatioPair.fixed)).sum ∧
      hqVarAllocSum l = dm.headquarters_variable_cost *
        (ds.map
          (fun p => (dictGet p.1 dm.allocation_ratios).elim 0 RatioPair.var)).sum := by
  intro ds
  induction ds with
  | nil =>
    intro l h
    simp [allocList] at h
    subst h
    simp [hqFixedAllocSum, hqVarAllocSum]
  | cons q rest ih =>
    intro l h
    obtain ⟨n, d⟩ := q
    unfold allocList at h
    rcases hc : allocOne dm n d with e | c <;> rw [hc] at h
    · simp at h
    rcases hrest : allocList dm rest with e | cs <;> rw [hrest] at h
    · simp at h
    simp at h
    subst h
    obtain ⟨S, r, _, hr, _, hcdef⟩ := allocOne_ok_inv hc
    obtain ⟨ihf, ihv⟩ := ih hrest
    subst hcdef
    constructor
    · simp only [hqFixedAllocSum, List.map_cons, List.sum_cons] at ihf ⊢
      rw [ihf]
      simp [mkAllocated, hr, mul_add]
    · simp only [hqVarAllocSum, List.map_cons, List.sum_cons] at ihv ⊢
      rw [ihv]
      simp [mkAllocated, hr, mul_add]

/-- C2: when every division's fixed allocation ratio sums to exactly 1 over
the divisions, and likewise every variable ratio, the per-division
headquarters allocations conserve the totals: the allocated fixed amounts sum
to the headquarters fixed total and the allocated variable amounts sum to the
headquarters variable total. -/
theorem allocation_conservation (dm : DataManager)
    (l : List (String × AllocatedCost))
    (hal : calculate_allocated_costs dm = .ok l)
    (hf : ratioFixedSum dm = 1) (hv : ratioVarSum dm = 1) :
    hqFixedAllocSum l = dm.headquarters_fixed_cost ∧
    hqVarAllocSum l = dm.headquarters_variable_cost := by
  obtain ⟨e1, e2⟩ := allocList_hq_sums hal
  unfold ratioFixedSum at hf
  unfold ratioVarSum at hv
  exact ⟨by rw [e1, hf, mul_one], by rw [e2, hv, mul_one]⟩

/-- C2 witness: `conservDM`, whose two divisions have ratios 1/2 each, sums
its allocations to the headquarters totals 200 and 100. -/
theorem allocation_conservation_witness :
    calculate_allocated_costs conservDM =
      .ok [("D1", exampleAlloc), ("D2", conservAlloc2)] ∧
    ratioFixedSum conservDM = 1 ∧ ratioVarSum conservDM = 1 ∧
    (hqFixedAllocSum [("D1", exampleAlloc), ("D2", conservAlloc2)] =
        conservDM.headquarters_fixed_cost ∧
      hqVarAllocSum [("D1", exampleAlloc), ("D2", conservAlloc2)] =
        conservDM.headquarters_variable_cost) :=
  ⟨by simp [calculate_allocated_costs, allocList, allocOne,
      calculate_implied_sales, mkAllocated, dictGet, conservDM]; norm_num
      [exampleAlloc, conservAlloc2],
    by simp [ratioFixedSum, dictGet, conservDM]; norm_num,
    by simp [ratioVarSum, dictGet, conservDM]; norm_num,
    allocation_conservation conservDM [("D1", exampleAlloc), ("D2", conservAlloc2)]
      (by simp [calculate_allocated_costs, allocList, allocOne,
        calculate_implied_sales, mkAllocated, dictGet, conservDM]; norm_num
        [exampleAlloc, conservAlloc2])
      (by simp [ratioFixedSum, dictGet, conservDM]; norm_num)
      (by simp [ratioVarSum, dictGet, conservDM]; norm_num)⟩

/-- C3: `calculate_allocated_costs` is a pure function of the engine state:
its successful result preserves the key list (names and iteration order) of
the division reference data, and any two calls on the same state return the
same result. -/
theorem allocatedCosts_pure (dm : DataManager)
    (l : List (String × AllocatedCost))
    (hal : calculate_allocated_costs dm = .ok l) :
    l.map Prod.fst = dm.departments.map Prod.fst ∧
    ∀ l', calculate_allocated_costs dm = .ok l' → l' = l := by
  refine ⟨allocList_keys hal, ?_⟩
  intro l' h'
  rw [hal] at h'
  injection h' with h
  exact h.symm

/-- C3 witness: `exampleDM`, whose result keys are exactly `["D1"]` and whose
repeated calls agree. -/
theorem allocatedCosts_pure_witness :
    calculate_allocated_costs exampleDM = .ok [("D1", exampleAlloc)] ∧
    ([("D1", exampleAlloc)].map Prod.fst =
        exampleDM.departments.map Prod.fst ∧
      ∀ l', calculate_allocated_costs exampleDM = .ok l' →
        l' = [("D1", exampleAlloc)]) :=
  ⟨by norm_num [calculate_allocated_costs, allocList, allocOne,
      calculate_implied_sales, mkAllocated, dictGet, exampleDM, exampleAlloc],
    allocatedCosts_pure exampleDM [("D1", exampleAlloc)]
      (by norm_num [calculate_allocated_costs, allocList, allocOne,
        calculate_implied_sales, mkAllocated, dictGet, exampleDM,
        exampleAlloc])⟩

/-- C8: `autoAdjustRatios` (modelled from the spec; no implementation exists
under `src/`) adjusts ratios in reverse division order with per-division
clamping: on `{A: 0.5, B: 0.3, C: 0.4}` with target 1.0 it returns
`{A: 0.5, B: 0.3, C: 0.2}`, and on `{A: 0.2, B: 0.2, C: 0.2}` with target 1.0
it returns `{A: 0.2, B: 0.2, C: 0.6}`. -/
theorem autoAdjustRatios_examples :
    autoAdjustRatios [("A", 1/2), ("B", 3/10), ("C", 2/5)] 1
      = [("A", 1/2), ("B", 3/10), ("C", 1/5)] ∧
    autoAdjustRatios [("A", 1/5), ("B", 1/5), ("C", 1/5)] 1
      = [("A", 1/5), ("B", 1/5), ("C", 3/5)] := by
  constructor <;> norm_num [autoAdjustRatios, adjustUpRev, adjustDownRev, abs]

/-- C9: in every state reachable from `__init__` through the public
operations (the only mutator being `update_allocation_ratios`), the cost
transfers are empty, so every allocated record has zero transfer adjustments
and its totals are the division's own cost plus the headquarters allocation
alone. -/
theorem reachable_transfers (dm : DataManager) (h : Reachable dm) :
    dm.cost_transfers = [] ∧
    ∀ l, calculate_allocated_costs dm = .ok l → ∀ q ∈ l,
      q.2.transfer_fixed = 0 ∧ q.2.transfer_variable = 0 ∧
      q.2.fixed_cost = q.2.original_fixed + q.2.hq_fixed_allocated ∧
      q.2.variable_cost = q.2.original_variable + q.2.hq_variable_allocated := by
  have hct : dm.cost_transfers = [] := by
    induction h with
    | init => rfl
    | update dm' r h' ih => simpa [update_allocation_ratios] using ih
  refine ⟨hct, ?_⟩
  intro l hal q hq
  obtain ⟨d, hmem, hone⟩ := allocList_mem_src hal hq
  obtain ⟨S, r, hS, hr, hz, hcdef⟩ := allocOne_ok_inv hone
  rw [hcdef]
  simp [mkAllocated, hct, dictGet]

/-- C9 witness: the reachability invariant instantiated at the initial
state. -/
theorem reachable_transfers_witness :
    initialDataManager.cost_transfers = [] ∧
    ∀ l, calculate_allocated_costs initialDataManager = .ok l → ∀ q ∈ l,
      q.2.transfer_fixed = 0 ∧ q.2.transfer_variable = 0 ∧
      q.2.fixed_cost = q.2.original_fixed + q.2.hq_fixed_allocated ∧
      q.2.variable_cost = q.2.original_variable + q.2.hq_variable_allocated :=
  reachable_transfers initialDataManager Reachable.init

/-- C10: for a division with margin rate strictly between 0 and 1, positive
variable cost, zero transfer adjustments and a nonnegative headquarters
variable allocation, the recomputed margin rate never exceeds the original
margin rate, with equality when the headquarters variable allocation is
zero. -/
theorem margin_rate_monotone (dm : DataManager) (n : String) (d : Department)
    (l : List (String × AllocatedCost)) (c : AllocatedCost)
    (hd : dictGet n dm.departments = some d)
    (hal : calculate_allocated_costs dm = .ok l) (hc : dictGet n l = some c)
    (h0 : 0 < d.margin_rate) (h1 : d.margin_rate < 1)
    (hv : 0 < d.variable_cost)
    (htf : c.transfer_fixed = 0) (htv : c.transfer_variable = 0)
    (hh : 0 ≤ c.hq_variable_allocated) :
    c.margin_rate ≤ d.margin_rate ∧
    (c.hq_variable_allocated = 0 → c.margin_rate = d.margin_rate) := by
  have hone := allocList_dictGet hal hd hc
  obtain ⟨S, r, hS, hr, hz, hcdef⟩ := allocOne_ok_inv hone
  have hne : (1 : ℚ) - d.margin_rate ≠ 0 := sub_ne_zero.mpr (ne_of_gt h1)
  have hSval : S = d.variable_cost / (1 - d.margin_rate) := by
    have hok := calculate_implied_sales_ok hd hne
    rw [hok] at hS
    injection hS with h'
    exact h'.symm
  have hSpos : 0 < S := by
    rw [hSval]
    exact div_pos hv (by linarith)
  have hhval : c.hq_variable_allocated = dm.headquarters_variable_cost * r.var := by
    rw [hcdef]; simp [mkAllocated]
  have htv' : (dictGet (n ++ "_variable") dm.cost_transfers).getD 0 = 0 := by
    have := htv
    rw [hcdef] at this
    simpa [mkAllocated] using this
  have hvs : d.variable_cost = S * (1 - d.margin_rate) := by
    rw [hSval]
    field_simp
  have hmarg : c.margin_rate =
      (S - d.variable_cost) / (S + dm.headquarters_variable_cost * r.var) := by
    rw [hcdef]
    simp only [mkAllocated]
    rw [htv']
    ring_nf
  have hhge : 0 ≤ dm.headquarters_variable_cost * r.var := hhval ▸ hh
  have hSh : 0 < S + dm.headquarters_variable_cost * r.var := by linarith
  constructor
  · rw [hmarg, hvs, div_le_iff₀ hSh]
    nlinarith [mul_nonneg h0.le hhge]
  · intro h0eq
    rw [hhval] at h0eq
    rw [hmarg, hvs, h0eq, add_zero]
    field_simp
    ring

/-- C10 witness: division `D1` of `exampleDM`, whose margin rate drops from
1/2 to 10/21 under a positive headquarters variable allocation. -/
theorem margin_rate_monotone_witness :
    dictGet "D1" exampleDM.departments = some ⟨1/2, 1000, 500⟩ ∧
    calculate_allocated_costs exampleDM = .ok [("D1", exampleAlloc)] ∧
    dictGet "D1" [("D1", exampleAlloc)] = some exampleAlloc ∧
    (0 : ℚ) < 1/2 ∧ (1/2 : ℚ) < 1 ∧ (0 : ℚ) < 500 ∧
    exampleAlloc.transfer_fixed = 0 ∧ exampleAlloc.transfer_variable = 0 ∧
    0 ≤ exampleAlloc.hq_variable_allocated ∧
    (exampleAlloc.margin_rate ≤ (⟨1/2, 1000, 500⟩ : Department).margin_rate ∧
      (exampleAlloc.hq_variable_allocated = 0 →
        exampleAlloc.margin_rate = (⟨1/2, 1000, 500⟩ : Department).margin_rate)) :=
  ⟨by norm_num [dictGet, exampleDM],
    by simp [calculate_allocated_costs, allocList, allocOne,
      calculate_implied_sales, mkAllocated, dictGet, exampleDM]; norm_num
      [exampleAlloc],
    by norm_num [dictGet], by norm_num, by norm_num, by norm_num,
    by norm_num [exampleAlloc], by norm_num [exampleAlloc],
    by norm_num [exampleAlloc],
    margin_rate_monotone exampleDM "D1" ⟨1/2, 1000, 500⟩
      [("D1", exampleAlloc)] exampleAlloc
      (by norm_num [dictGet, exampleDM])
      (by simp [calculate_allocated_costs, allocList, allocOne,
        calculate_implied_sales, mkAllocated, dictGet, exampleDM]; norm_num
        [exampleAlloc])
      (by norm_num [dictGet]) (by norm_num) (by norm_num) (by norm_num)
      (by norm_num [exampleAlloc]) (by norm_num [exampleAlloc])
      (by norm_num [exampleAlloc])⟩

theorem impactList_dictGet {dm : DataManager} :
    ∀ {ds : List (String × Department)} {il : List (String × ImpactEffect)}
      {n : String} {d : Department} {e : ImpactEffect},
      impactList dm ds = .ok il → dictGet n ds = some d →
      dictGet n il = some e → impactOne dm n d = .ok e := by
  intro ds
  induction ds with
  | nil => intro il n d e h hd he; simp [dictGet] at hd
  | cons q rest ih =>
    intro il n d e h hd he
    obtain ⟨m, d0⟩ := q
    unfold impactList at h
    rcases he0 : impactOne dm m d0 with e' | eff0 <;> rw [he0] at h
    · simp at h
    rcases hrest : impactList dm rest with e' | effs <;> rw [hrest] at h
    · simp at h
    simp at h
    subst h
    by_cases hm : m = n
    · subst hm
      rw [dictGet, if_pos rfl] at hd
      rw [dictGet, if_pos rfl] at he
      obtain rfl : d0 = d := by simpa using hd
      obtain rfl : eff0 = e := by simpa using he
      exact he0
    · rw [dictGet, if_neg hm] at hd
      rw [dictGet, if_neg hm] at he
      exact ih hrest hd he

/-- C6: in the impact analysis, a division whose original variable cost is 0
reports a variable-cost increase percentage of 0 (no error on that division's
percentage), while a division with positive original variable cost reports
exactly `(total_variable - original_variable) / original_variable * 100`. -/
theorem impact_variable_pct (dm : DataManager) (n : String) (d : Department)
    (il : List (String × ImpactEffect)) (e : ImpactEffect)
    (al : List (String × AllocatedCost)) (c : AllocatedCost)
    (hd : dictGet n dm.departments = some d)
    (him : get_allocation_impact_analysis dm = .ok il)
    (he : dictGet n il = some e)
    (hal : calculate_allocated_costs dm = .ok al)
    (hc : dictGet n al = some c) :
    (d.variable_cost = 0 → e.variable_increase_pct = 0) ∧
    (0 < d.variable_cost →
      e.variable_increase_pct =
        (c.variable_cost - d.variable_cost) / d.variable_cost * 100) := by
  have hone := impactList_dictGet him hd he
  unfold impactOne at hone
  rcases hS : calculate_implied_sales dm n with e' | S <;> rw [hS] at hone
  · simp at hone
  rw [hal] at hone
  simp only [hc] at hone
  by_cases hm : d.margin_rate = 0
  · rw [if_pos hm] at hone
    simp at hone
  · rw [if_neg hm] at hone
    simp only [Except.ok.injEq] at hone
    constructor
    · intro h0
      rw [← hone]
      simp [h0]
    · intro h0
      rw [← hone]
      simp [h0]

/-- C6 witness: division `D1` of `exampleDM`, whose original variable cost is
500 > 0 and whose reported increase percentage is (550-500)/500*100 = 10. -/
theorem impact_variable_pct_witness :
    dictGet "D1" exampleDM.departments = some ⟨1/2, 1000, 500⟩ ∧
    get_allocation_impact_analysis exampleDM = .ok [("D1", exampleImpact)] ∧
    dictGet "D1" [("D1", exampleImpact)] = some exampleImpact ∧
    calculate_allocated_costs exampleDM = .ok [("D1", exampleAlloc)] ∧
    dictGet "D1" [("D1", exampleAlloc)] = some exampleAlloc ∧
    ((((⟨1/2, 1000, 500⟩ : Department).variable_cost = 0 →
        exampleImpact.variable_increase_pct = 0) ∧
      (0 < (⟨1/2, 1000, 500⟩ : Department).variable_cost →
        exampleImpact.variable_increase_pct =
          (exampleAlloc.variable_cost -
              (⟨1/2, 1000, 500⟩ : Department).variable_cost) /
            (⟨1/2, 1000, 500⟩ : Department).variable_cost * 100))) :=
  ⟨by norm_num [dictGet, exampleDM],
    by simp [get_allocation_impact_analysis, impactList, impactOne,
      calculate_allocated_costs, allocList, allocOne, calculate_implied_sales,
      mkAllocated, dictGet, exampleDM]; norm_num [exampleImpact, exampleAlloc, dictGet],
    by norm_num [dictGet],
    by simp [calculate_allocated_costs, allocList, allocOne,
      calculate_implied_sales, mkAllocated, dictGet, exampleDM]; norm_num
      [exampleAlloc],
    by norm_num [dictGet],
    impact_variable_pct exampleDM "D1" ⟨1/2, 1000, 500⟩
      [("D1", exampleImpact)] exampleImpact [("D1", exampleAlloc)] exampleAlloc
      (by norm_num [dictGet, exampleDM])
      (by simp [get_allocation_impact_analysis, impactList, impactOne,
        calculate_allocated_costs, allocList, allocOne, calculate_implied_sales,
        mkAllocated, dictGet, exampleDM]; norm_num [exampleImpact, exampleAlloc, dictGet])
      (by norm_num [dictGet])
      (by simp [calculate_allocated_costs, allocList, allocOne,
        calculate_implied_sales, mkAllocated, dictGet, exampleDM]; norm_num
        [exampleAlloc])
      (by norm_num [dictGet])⟩

theorem impactOne_classify {dm : DataManager} {al : List (String × AllocatedCost)}
    {n : String} (d : Department) {S : ℚ} {a : AllocatedCost}
    (hal : calculate_allocated_costs dm = .ok al)
    (hS : calculate_implied_sales dm n = .ok S)
    (ha : dictGet n al = some a) :
    (d.margin_rate = 0 → impactOne dm n d = .error .zeroDivision) ∧
    (d.margin_rate ≠ 0 → ∃ e, impactOne dm n d = .ok e) := by
  unfold impactOne
  rw [hS, hal]
  simp only [ha]
  constructor
  · intro h
    rw [if_pos h]
  · intro h
    rw [if_neg h]
    exact ⟨_, rfl⟩

theorem impactList_err {dm : DataManager} {al : List (String × AllocatedCost)}
    (hal : calculate_allocated_costs dm = .ok al) :
    ∀ ds : List (String × Department),
      (∀ p ∈ ds, p ∈ dm.departments) →
      (∃ p ∈ ds, p.2.margin_rate = 0) →
      impactList dm ds = .error .zeroDivision := by
  intro ds
  induction ds with
  | nil => intro _ hex; simp at hex
  | cons q rest ih =>
    intro hsub hex
    obtain ⟨qn, qd⟩ := q
    have hq : (qn, qd) ∈ dm.departments := hsub (qn, qd) (by simp)
    have hal' : allocList dm dm.departments = .ok al := hal
    obtain ⟨c, hc⟩ := allocList_mem_ok hal' hq
    obtain ⟨S, r, hS, -, -, -⟩ := allocOne_ok_inv hc
    have hkey : qn ∈ al.map Prod.fst := by
      rw [allocList_keys hal']
      exact List.mem_map_of_mem _ hq
    obtain ⟨a, ha⟩ := dictGet_key_mem hkey
    obtain ⟨hzero, hnonzero⟩ := impactOne_classify qd hal hS ha
    by_cases hqm : qd.margin_rate = 0
    · unfold impactList
      rw [hzero hqm]
    · obtain ⟨e, he⟩ := hnonzero hqm
      have hrest : impactList dm rest = .error .zeroDivision := by
        refine ih (fun p hp => hsub p (List.mem_cons_of_mem _ hp)) ?_
        obtain ⟨p, hp, hpm⟩ := hex
        rcases List.mem_cons.mp hp with rfl | hp'
        · exact absurd hpm hqm
        · exact ⟨p, hp', hpm⟩
      unfold impactList
      rw [he, hrest]

/-- C7: the margin-rate change percentage in the impact analysis is not
zero-guarded: whenever the state contains a division whose original margin
rate is 0 while the allocation computation itself succeeds,
`get_allocation_impact_analysis` raises `ZeroDivisionError` instead of
returning 0. -/
theorem impact_margin_zero (dm : DataManager)
    (al : List (String × AllocatedCost)) (n : String) (d : Department)
    (hal : calculate_allocated_costs dm = .ok al)
    (hmem : (n, d) ∈ dm.departments) (hm : d.margin_rate = 0) :
    get_allocation_impact_analysis dm = .error .zeroDivision := by
  unfold get_allocation_impact_analysis
  exact impactList_err hal dm.departments (fun p hp => hp) ⟨(n, d), hmem, hm⟩

/-- C7 witness: `marginZeroDM`, whose division `Z1` has original margin rate
0 but allocates successfully, makes the impact analysis raise. -/
theorem impact_margin_zero_witness :
    calculate_allocated_costs marginZeroDM = .ok [("Z1", zeroAlloc)] ∧
    ("Z1", (⟨0, 1000, 500⟩ : Department)) ∈ marginZeroDM.departments ∧
    (⟨0, 1000, 500⟩ : Department).margin_rate = 0 ∧
    get_allocation_impact_analysis marginZeroDM = .error .zeroDivision :=
  ⟨by simp [calculate_allocated_costs, allocList, allocOne,
      calculate_implied_sales, mkAllocated, dictGet, marginZeroDM]; norm_num
      [zeroAlloc],
    by simp [marginZeroDM], by norm_num,
    impact_margin_zero marginZeroDM [("Z1", zeroAlloc)] "Z1" ⟨0, 1000, 500⟩
      (by simp [calculate_allocated_costs, allocList, allocOne,
        calculate_implied_sales, mkAllocated, dictGet, marginZeroDM]; norm_num
        [zeroAlloc])
      (by simp [marginZeroDM]) (by norm_num)⟩
